import Mathlib

/-!
Verification of the doc-convention checker (`check-doc-conventions.py`).

Lines of the scanned Rust sources are modelled as lists of characters
(`Str`).  The Python string primitives used by the program (`strip`,
`startswith`, `split`, `isupper`, `istitle`, `isalpha`, substring test)
are embedded as executable functions on `Str`, and the classifier,
source model and the four lint rules are translated from the source.
Fallible indexing (`xs[0]`, `xs[-1]`, `split[1]`) is modelled with
`Except Unit`, whose `error` value stands for Python's `IndexError`.
-/

/-- A Python string, modelled as a list of characters. -/
abbrev Str := List Char

/-- The characters `str.strip()` removes (ASCII whitespace). -/
def isSp (c : Char) : Bool :=
  c = ' ' || c = '\t' || c = '\n' || c = '\r' || c = Char.ofNat 11 || c = Char.ofNat 12

/-- Python `s.lstrip()`. -/
def lstrip (s : Str) : Str := s.dropWhile isSp

/-- Python `s.rstrip()`. -/
def rstrip (s : Str) : Str := (s.reverse.dropWhile isSp).reverse

/-- Python `s.strip()`. -/
def pyStrip (s : Str) : Str := rstrip (lstrip s)

/-- Python `s.startswith(pre)`. -/
def strStarts : Str → Str → Bool
  | _, [] => true
  | [], _ :: _ => false
  | c :: cs, p :: ps => p = c && strStarts cs ps

/-- Python `sub in s` (substring containment). -/
def strContains : Str → Str → Bool
  | [], sub => strStarts [] sub
  | c :: cs, sub => strStarts (c :: cs) sub || strContains cs sub

/-- Python `s.split(". ")`: split on the two-character period-space
delimiter, non-overlapping, left to right. -/
def splitDot : Str → List Str
  | [] => [[]]
  | '.' :: ' ' :: rest => [] :: splitDot rest
  | c :: rest =>
    match splitDot rest with
    | [] => [[c]]
    | h :: t => (c :: h) :: t

/-- Python `s.split(sep)` for a single-character separator. -/
def splitOn1 (sep : Char) : Str → List Str
  | [] => [[]]
  | c :: rest =>
    if c = sep then [] :: splitOn1 sep rest
    else
      match splitOn1 sep rest with
      | [] => [[c]]
      | h :: t => (c :: h) :: t

/-- Accumulator-based helper for `pyWords` (current word is kept reversed). -/
def wordsAux : Str → Str → List Str
  | cur, [] => if cur = [] then [] else [cur.reverse]
  | cur, c :: rest =>
    if isSp c then
      if cur = [] then wordsAux [] rest else cur.reverse :: wordsAux [] rest
    else wordsAux (c :: cur) rest

/-- Python `s.split()`: whitespace-delimited words, no empty pieces. -/
def pyWords (s : Str) : List Str := wordsAux [] s

/-- Python `" ".join(parts)`. -/
def joinSp : List Str → Str
  | [] => []
  | [s] => s
  | s :: rest => s ++ ' ' :: joinSp rest

/-- ASCII uppercase test (Python `c.isupper()` on one character). -/
def isUpperCh (c : Char) : Bool := decide ('A' ≤ c) && decide (c ≤ 'Z')

/-- ASCII lowercase test. -/
def isLowerCh (c : Char) : Bool := decide ('a' ≤ c) && decide (c ≤ 'z')

/-- ASCII cased-letter test. -/
def isAlphaCh (c : Char) : Bool := isUpperCh c || isLowerCh c

/-- Python `s.isalpha()`: nonempty and all letters. -/
def pyIsalpha (s : Str) : Bool := (decide (s ≠ [])) && s.all isAlphaCh

/-- Python `s.isupper()`: at least one cased character and no lowercase one. -/
def pyIsupperS (s : Str) : Bool := s.any isAlphaCh && s.all fun c => !(isLowerCh c)

/-- State machine behind `pyIstitle`: the flags are "previous character was
cased" and "a cased character has been seen". -/
def istitleAux : Bool → Bool → Str → Bool
  | _, found, [] => found
  | prev, found, c :: rest =>
    if isUpperCh c then
      if prev then false else istitleAux true true rest
    else if isLowerCh c then
      if prev then istitleAux true true rest else false
    else istitleAux false found rest

/-- Python `s.istitle()`: uppercase letters only after uncased characters,
lowercase letters only after cased ones, at least one cased character. -/
def pyIstitle (s : Str) : Bool := istitleAux false false s

/-! ## The line classifier (`RustLine.__init__`) -/

/-- The `DocLineType` enumeration of the checker. -/
inductive DocLineType where
  | NONE
  | TEXT
  | TEXT_HEADER
  | TEXT_EMPTY
  | CODE_BEGIN
  | CODE
  | CODE_END
deriving DecidableEq

/-- The `ItemType` enumeration of the checker. -/
inductive ItemType where
  | NONE
  | FUNCTION
  | STRUCT
  | ENUM
  | TRAIT
  | TYPE
  | IMPL
  | USE
deriving DecidableEq

/-- One classified line of a Rust source file (`RustLine`). -/
structure RustLine where
  doc_line_type : DocLineType
  comment : Bool
  content : Str
  item_type : ItemType
deriving DecidableEq

/-- The outer doc-comment marker. -/
def docMark1 : Str := ['/', '/', '/']

/-- The module-level doc-comment marker. -/
def docMark2 : Str := ['/', '/', '!']

/-- The plain comment marker. -/
def comMark : Str := ['/', '/']

/-- The three-backtick fence that delimits doctest blocks. -/
def fence : Str := [Char.ofNat 96, Char.ofNat 96, Char.ofNat 96]

/-- Item detection over a code line: substring tests in the source's
priority order, first match wins. -/
def itemOf (sline : Str) : ItemType :=
  if strContains sline ['f', 'n', ' '] then .FUNCTION
  else if strContains sline ['s', 't', 'r', 'u', 'c', 't', ' '] then .STRUCT
  else if strContains sline ['e', 'n', 'u', 'm', ' '] then .ENUM
  else if strContains sline ['t', 'r', 'a', 'i', 't', ' '] then .TRAIT
  else if strContains sline ['t', 'y', 'p', 'e', ' '] then .TYPE
  else if strContains sline ['i', 'm', 'p', 'l', ' '] ||
          strContains sline ['i', 'm', 'p', 'l', '<'] then .IMPL
  else if strContains sline ['u', 's', 'e', ' '] then .USE
  else .NONE

/-- Classification of the documentation content of a doc-comment line
(the branch of `RustLine.__init__` taken after a doc marker matched;
`content` is the text after the marker, stripped). -/
def parseDoc (content : Str) (in_doctest : Bool) : RustLine :=
  if strStarts content ['#'] then
    ⟨.TEXT_HEADER, true, pyStrip (content.drop 1), .NONE⟩
  else if content = [] then
    ⟨.TEXT_EMPTY, true, content, .NONE⟩
  else if strStarts content fence then
    ⟨if in_doctest then .CODE_END else .CODE_BEGIN, true, content, .NONE⟩
  else
    ⟨if in_doctest then .CODE else .TEXT, true, content, .NONE⟩

/-- `RustLine.__init__`: classify one raw line given the doctest flag. -/
def parseLine (raw : Str) (in_doctest : Bool) : RustLine :=
  if strStarts (pyStrip raw) docMark1 || strStarts (pyStrip raw) docMark2 then
    parseDoc (pyStrip ((pyStrip raw).drop 3)) in_doctest
  else if strStarts (pyStrip raw) comMark then
    ⟨.NONE, true, pyStrip ((pyStrip raw).drop 2), .NONE⟩
  else
    ⟨.NONE, false, pyStrip raw, itemOf (pyStrip raw)⟩

/-- The trimmed documentation content of a raw line (the text obtained by
stripping the three-character marker and trimming; meaningful when the
line carries a doc marker). -/
def docContent (raw : Str) : Str := pyStrip ((pyStrip raw).drop 3)

/-- `RustLine.is_doc_comment`, as a boolean. -/
def isDocC (r : RustLine) : Bool := decide (r.doc_line_type ≠ DocLineType.NONE)

/-- `RustLine.format`: reconstruct the line for printing. -/
def formatRL (r : RustLine) : Str :=
  if r.doc_line_type ≠ DocLineType.NONE then
    ['/', '/', '/', ' '] ++
      (if r.doc_line_type = DocLineType.TEXT_HEADER then ['#', ' '] else []) ++ r.content
  else if r.comment then
    ['/', '/', ' '] ++ r.content
  else r.content

/-- The caller's doctest-flag update after classifying one line
(`SourceFile.__init__`, the `CODE_BEGIN`/`CODE_END` cases). -/
def updFlag (d : DocLineType) (fl : Bool) : Bool :=
  match d with
  | .CODE_BEGIN => true
  | .CODE_END => false
  | _ => fl

/-- `SourceFile.__init__`'s fold: classify the raw lines in order,
threading the doctest flag. -/
def parseLines (fl : Bool) : List Str → List RustLine
  | [] => []
  | r :: rs =>
    let L := parseLine r fl
    L :: parseLines (updFlag L.doc_line_type fl) rs

/-- Whether the line at a given index is a doc comment (`false` when the
index is out of range). -/
def isDocAt (lines : List RustLine) (i : Nat) : Bool :=
  match lines.get? i with
  | some r => isDocC r
  | none => false

/-- `SourceFile.doc_comment_lines`: the `(index, line)` pairs at which a
doc-comment block starts. -/
def docCommentLines (lines : List RustLine) : List (Nat × RustLine) :=
  lines.enum.filter fun p => isDocC p.2 && (p.1 == 0 || !(isDocAt lines (p.1 - 1)))

/-! ## The lint rules

Each rule returns `Except Unit` results: `error ()` models an uncaught
Python `IndexError`, an `ok` value collects the line indices at which
alerts were printed (one list entry per printed alert). -/

/-- `IsolatedIntroLint.check_file`'s accumulation of the intro text: the
block's first content joined with the content of the immediately
following plain-text doc lines. -/
def introJoin (content : Str) (rest : List RustLine) : Str :=
  ((rest.takeWhile fun l => decide (l.doc_line_type = DocLineType.TEXT)).map
      RustLine.content).foldl (fun acc c => acc ++ ' ' :: c) content

/-- `IsolatedIntroLint.check_file`'s fragment scan: stop at the first
fragment whose first character is uppercase; indexing an empty fragment
is an error. -/
def scanParts : List Str → Except Unit Bool
  | [] => .ok false
  | p :: ps =>
    match p with
    | [] => .error ()
    | c :: _ => if isUpperCh c then .ok true else scanParts ps

/-- Whether the isolated-intro rule flags one doc block (the block starts
at index `ln` with line `l`). -/
def isolatedBlock (lines : List RustLine) (ln : Nat) (l : RustLine) : Except Unit Bool :=
  scanParts (splitDot (introJoin l.content (lines.drop (ln + 1)))).tail

/-- Run a per-block boolean check over the doc-block starts, collecting
the start indices that were flagged. -/
def collectLn (f : Nat → RustLine → Except Unit Bool) :
    List (Nat × RustLine) → Except Unit (List Nat)
  | [] => .ok []
  | (ln, l) :: rest => do
    let b ← f ln l
    let more ← collectLn f rest
    pure (if b then ln :: more else more)

/-- `IsolatedIntroLint.check_file` over a classified file. -/
def isolatedIntroCheck (lines : List RustLine) : Except Unit (List Nat) :=
  collectLn (isolatedBlock lines) (docCommentLines lines)

/-- `CompleteSentencesLint.check_file`'s section gathering from the block
start onward: contiguous runs of plain-text doc lines, flushed when a
non-text line is met; the scan stops at a non-doc line, and a run still
open when the list ends is dropped. -/
def gatherSections : List RustLine → List Str → List (List Str)
  | [], _ => []
  | l :: ls, acc =>
    if l.doc_line_type = DocLineType.TEXT then gatherSections ls (acc ++ [l.content])
    else
      (if acc = [] then [] else [acc]) ++
        (if l.doc_line_type = DocLineType.NONE then [] else gatherSections ls [])

/-- Modelled from the spec's wording for the complete-sentences rule: the
same gathering, but a run terminated by the list ending is also flushed
(end of file closes the run like a non-documentation line would). -/
def gatherSectionsSpec : List RustLine → List Str → List (List Str)
  | [], acc => if acc = [] then [] else [acc]
  | l :: ls, acc =>
    if l.doc_line_type = DocLineType.TEXT then gatherSectionsSpec ls (acc ++ [l.content])
    else
      (if acc = [] then [] else [acc]) ++
        (if l.doc_line_type = DocLineType.NONE then [] else gatherSectionsSpec ls [])

/-- `CompleteSentencesLint`'s first-word loop over the sentences of one
section: indexing `words[0]` of an empty word list is an error; the scan
stops at the first flagged sentence. -/
def firstWordScan : List Str → Except Unit Nat
  | [] => .ok 0
  | s :: rest =>
    match pyWords s with
    | [] => .error ()
    | w :: _ =>
      if pyIsalpha w && !(pyIsupperS w) && !(pyIstitle w) then .ok 1
      else firstWordScan rest

/-- Number of alerts the complete-sentences rule prints for one section
(first-word check, then the terminal-period check on the last sentence). -/
def sectionCheck (sec : List Str) : Except Unit Nat := do
  let sentences := splitDot (joinSp sec)
  let a ← firstWordScan sentences
  match sentences.getLast? with
  | none => .error ()
  | some last =>
    match last.getLast? with
    | none => .error ()
    | some ch => .ok (a + if ch = '.' then 0 else 1)

/-- Alert count over all sections of one block. -/
def sectionsCheck : List (List Str) → Except Unit Nat
  | [] => .ok 0
  | sec :: rest => do
    let a ← sectionCheck sec
    let b ← sectionsCheck rest
    pure (a + b)

/-- `CompleteSentencesLint` applied to the block starting at index `ln`. -/
def completeBlock (lines : List RustLine) (ln : Nat) : Except Unit Nat :=
  sectionsCheck (gatherSections (lines.drop ln) [])

/-- Run a per-block alert count over the doc-block starts, emitting the
start index once per alert. -/
def collectCnt (f : Nat → Except Unit Nat) :
    List (Nat × RustLine) → Except Unit (List Nat)
  | [] => .ok []
  | (ln, _) :: rest => do
    let a ← f ln
    let more ← collectCnt f rest
    pure (List.replicate a ln ++ more)

/-- `CompleteSentencesLint.check_file` over a classified file. -/
def completeCheck (lines : List RustLine) : Except Unit (List Nat) :=
  collectCnt (completeBlock lines) (docCommentLines lines)

/-- `CrossRefLint.check_file`'s scan of one content line: at each `[`,
split the remainder on `]`; accessing the piece after a missing `]` is
an error; a bracketed reference not followed by `(` must start with a
backtick. -/
def crossRefAux : Str → Except Unit Nat
  | [] => .ok 0
  | c :: rest =>
    if c = '[' then
      match splitOn1 ']' rest with
      | [] => .error ()
      | [_] => .error ()
      | s0 :: s1 :: _ =>
        (crossRefAux rest).map fun a =>
          (if strStarts s1 ['('] then 0
           else if strStarts s0 [Char.ofNat 96] then 0 else 1) + a
    else crossRefAux rest

/-- The per-line loop of `CrossRefLint.check_file`. -/
def crossLines : List (Nat × RustLine) → Except Unit (List Nat)
  | [] => .ok []
  | (ln, l) :: rest =>
    if l.doc_line_type = DocLineType.TEXT ∨ l.doc_line_type = DocLineType.TEXT_HEADER then do
      let a ← crossRefAux l.content
      let more ← crossLines rest
      pure (List.replicate a ln ++ more)
    else crossLines rest

/-- `CrossRefLint.check_file` over a classified file. -/
def crossRefCheck (lines : List RustLine) : Except Unit (List Nat) :=
  crossLines lines.enum

/-- `FunctionIntroVerbLint.check_file`'s forward scan: the first
subsequent line that is a doc comment or declares an item. -/
def findStop : List RustLine → Option RustLine
  | [] => none
  | l :: ls =>
    if isDocC l || decide (l.item_type ≠ ItemType.NONE) then some l else findStop ls

/-- Whether the function-intro-verb rule flags the block starting at `ln`
with first line `l`: only a stop line declaring a function is checked,
and then the first word of the block's first content line must be
title-case and end in the letter s. -/
def funcBlock (lines : List RustLine) (ln : Nat) (l : RustLine) : Except Unit Bool :=
  match findStop (lines.drop (ln + 1)) with
  | none => .ok false
  | some stop =>
    if stop.item_type = ItemType.FUNCTION then
      match pyWords l.content with
      | [] => .error ()
      | w :: _ => .ok (!(pyIstitle w) || decide (w.getLastD 'x' ≠ 's'))
    else .ok false

/-- `FunctionIntroVerbLint.check_file` over a classified file. -/
def funcIntroCheck (lines : List RustLine) : Except Unit (List Nat) :=
  collectLn (funcBlock lines) (docCommentLines lines)

/-! ## The runner -/

/-- A file system: an association of paths to raw line lists. -/
def lookupA : List (Str × List Str) → Str → Option (List Str)
  | [], _ => none
  | (p, v) :: rest, q => if p = q then some v else lookupA rest q

/-- `SourceFile.__init__` including the file access: a missing or
unreadable path is an access error, otherwise the raw lines are
classified with the doctest flag threaded from `false`. -/
def loadSource (fsys : List (Str × List Str)) (path : Str) : Except Unit (List RustLine) :=
  match lookupA fsys path with
  | none => .error ()
  | some raws => .ok (parseLines false raws)

/-- Run the four registered lints, in registry order, over one classified
file; any uncaught rule error aborts. -/
def runLints (lines : List RustLine) : Except Unit (List (List Nat)) := do
  let a ← isolatedIntroCheck lines
  let b ← crossRefCheck lines
  let c ← completeCheck lines
  let d ← funcIntroCheck lines
  pure [a, b, c, d]

/-- The module-level runner loop: scan each supplied path in order. No
exception is caught, so the first failing file aborts the whole run. -/
def runFiles (fsys : List (Str × List Str)) : List Str → Except Unit (List (Str × List (List Nat)))
  | [] => .ok []
  | p :: ps => do
    let lines ← loadSource fsys p
    let res ← runLints lines
    let rest ← runFiles fsys ps
    pure ((p, res) :: rest)

/-! ## Doc-block starts and run counting -/

/-- Count the maximal runs of `true` flags: a run is counted at a `true`
preceded by a `false` (or by the start, via the threaded flag). -/
def countRunsB : Bool → List Bool → Nat
  | _, [] => 0
  | prev, b :: bs => (if b && !prev then 1 else 0) + countRunsB b bs

/-- Number of maximal runs of consecutive doc-kind lines preceded by a
non-doc-kind line or the start of the file. -/
def countDocRuns (lines : List RustLine) : Nat := countRunsB false (lines.map isDocC)

/-- Threaded-flag form of the doc-block start enumeration, used to relate
the filter over the enumerated lines to the run count. -/
def docStartsFrom : Nat → Bool → List RustLine → List (Nat × RustLine)
  | _, _, [] => []
  | i, prev, l :: ls =>
    (if isDocC l && !prev then [(i, l)] else []) ++ docStartsFrom (i + 1) (isDocC l) ls

/-! ## Spec-side descriptions of the two block-start rules -/

/-- Spec-side flag of the isolated-intro rule: some fragment after the
first begins with an uppercase character. -/
def isolatedSpecFlag (lines : List RustLine) (p : Nat × RustLine) : Bool :=
  ((splitDot (introJoin p.2.content (lines.drop (p.1 + 1)))).tail).any
    fun q => isUpperCh (q.headD ' ')

/-- Spec-side flag of the function-intro-verb rule: the scan stops at a
line declaring a function and the first word of the block's first
content line is not title-case or does not end in the letter s. -/
def funcSpecFlag (lines : List RustLine) (p : Nat × RustLine) : Bool :=
  match findStop (lines.drop (p.1 + 1)) with
  | some stop =>
    decide (stop.item_type = ItemType.FUNCTION) &&
      (match pyWords p.2.content with
       | w :: _ => !(pyIstitle w) || decide (w.getLastD 'x' ≠ 's')
       | [] => false)
  | none => false

/-- The item kind of an optional stop line (`NONE` when there is none). -/
def stopItem : Option RustLine → ItemType
  | some stop => stop.item_type
  | none => .NONE

/-! ## Concrete inputs used by the witnesses and counterexamples -/

/-- Convert a Lean string literal to the character-list representation. -/
def strL (s : String) : Str := s.data

/-- A raw line whose intro text has an empty fragment before an
uppercase-starting one. -/
def fileCrashIntro : List Str := [strL "/// A. . B"]

/-- A file whose first doc section begins with an empty sentence. -/
def fileCrashSent : List Str := [strL "/// . Foo", strL "fn f() \x7b\x7d"]

/-- A doc line with an unclosed cross-reference bracket. -/
def fileCrashRef : List Str := [strL "/// [x"]

/-- A doc block with an empty first line documenting a function. -/
def fileCrashVerb : List Str := [strL "///", strL "fn f() \x7b\x7d"]

/-- A file whose only doc run is terminated by the end of the file and
whose sentence lacks a terminal period. -/
def fileEofRun : List Str := [strL "/// Computes the sum"]

/-- A properly terminated one-sentence doc comment. -/
def fileTermRun : List Str := [strL "/// Hi.", strL "fn f() \x7b\x7d"]

/-- A doc block with a two-sentence intro above a function. -/
def fileTwoSent : List Str := [strL "/// Computes the total. This is a detail.", strL "fn f() \x7b\x7d"]

/-- A function doc whose first word does not end in the letter s. -/
def fileVerbBad : List Str := [strL "/// Return the sum.", strL "fn foo() \x7b\x7d"]

/-- A doc line carrying a fence followed by a language tag. -/
def rawFenceTag : Str := strL "/// " ++ fence ++ strL "rust"

/-- A doc line whose sole content is the fence. -/
def rawFenceOnly : Str := strL "/// " ++ fence

/-- A module-level doc line. -/
def rawInnerDoc : Str := strL "//! Hi."

/-- An ordinary outer doc line. -/
def rawOuterDoc : Str := strL "/// Hello."

/-- A one-file file system for the runner. -/
def fsB : List (Str × List Str) := [(strL "b.rs", [strL "// ok"])]


/-! ## String lemmas -/

theorem dropWhile_idem (p : Char → Bool) (l : Str) :
    List.dropWhile p (List.dropWhile p l) = List.dropWhile p l := by
  induction l with
  | nil => rfl
  | cons c cs ih =>
    rw [List.dropWhile_cons]
    by_cases h : p c = true
    · simp [h, ih]
    · simp only [h]
      simp only [Bool.false_eq_true, if_false]
      rw [List.dropWhile_cons]
      simp [h]

theorem dropWhile_app (p : Char → Bool) (u v : Str) :
    List.dropWhile p (u ++ v) =
      if List.dropWhile p u = [] then List.dropWhile p v else List.dropWhile p u ++ v := by
  induction u with
  | nil => simp
  | cons c cs ih =>
    by_cases h : p c = true
    · simpa [List.dropWhile_cons, h] using ih
    · simp [List.dropWhile_cons, h]

theorem lstrip_cons_nonsp (c : Char) (s : Str) (h : isSp c = false) :
    lstrip (c :: s) = c :: s := by
  simp [lstrip, List.dropWhile_cons, h]

theorem lstrip_cons_sp (c : Char) (s : Str) (h : isSp c = true) :
    lstrip (c :: s) = lstrip s := by
  simp [lstrip, List.dropWhile_cons, h]

theorem lstrip_head : ∀ (s : Str) {c : Char} {t : Str}, lstrip s = c :: t → isSp c = false := by
  intro s
  induction s with
  | nil => intro c t h; simp [lstrip] at h
  | cons a as ih =>
    intro c t h
    by_cases ha : isSp a = true
    · rw [lstrip_cons_sp a as ha] at h; exact ih h
    · rw [lstrip_cons_nonsp a as (by simpa using ha)] at h
      cases h; simpa using ha

theorem rstrip_append (s t : Str) :
    rstrip (s ++ t) = if rstrip t = [] then rstrip s else s ++ rstrip t := by
  unfold rstrip
  rw [List.reverse_append, dropWhile_app]
  by_cases h : List.dropWhile isSp t.reverse = []
  · simp [h]
  · have h2 : (List.dropWhile isSp t.reverse).reverse ≠ [] := by
      simpa using h
    simp [h, h2]

theorem rstrip_cons_of {t : Str} (c : Char) (h : rstrip t ≠ []) :
    rstrip (c :: t) = c :: rstrip t := by
  have := rstrip_append [c] t
  simpa [h] using this

theorem rstrip_cons_nonsp (c : Char) (s : Str) (h : isSp c = false) :
    rstrip (c :: s) = c :: rstrip s := by
  by_cases hs : rstrip s = []
  · have : rstrip [c] = [c] := by simp [rstrip, List.dropWhile_cons, h]
    have h2 := rstrip_append [c] s
    simp only [hs, if_pos] at h2
    simpa [this, hs] using h2
  · exact rstrip_cons_of c hs

theorem rstrip_idem (s : Str) : rstrip (rstrip s) = rstrip s := by
  simp [rstrip, List.reverse_reverse, dropWhile_idem]

theorem lstrip_idem (s : Str) : lstrip (lstrip s) = lstrip s := dropWhile_idem isSp s

theorem lstrip_rstrip_lstrip (s : Str) : lstrip (rstrip (lstrip s)) = rstrip (lstrip s) := by
  rcases hu : lstrip s with _ | ⟨c, t⟩
  · simp [rstrip, lstrip]
  · have hc : isSp c = false := lstrip_head s hu
    rw [rstrip_cons_nonsp c t hc, lstrip_cons_nonsp c _ hc]

theorem strip_lstrip (s : Str) : lstrip (pyStrip s) = pyStrip s := by
  unfold pyStrip; exact lstrip_rstrip_lstrip s

theorem strip_rstrip (s : Str) : rstrip (pyStrip s) = pyStrip s := by
  unfold pyStrip; exact rstrip_idem _

theorem strip_of_stripped {s : Str} (hl : lstrip s = s) (hr : rstrip s = s) :
    pyStrip s = s := by
  unfold pyStrip; rw [hl, hr]

theorem strip_idem (s : Str) : pyStrip (pyStrip s) = pyStrip s :=
  strip_of_stripped (strip_lstrip s) (strip_rstrip s)

theorem strip_cons_sp (c : Char) (s : Str) (h : isSp c = true) :
    pyStrip (c :: s) = pyStrip s := by
  unfold pyStrip; rw [lstrip_cons_sp c s h]

theorem strStarts_iff (s pre : Str) : strStarts s pre = true ↔ ∃ t, s = pre ++ t := by
  induction pre generalizing s with
  | nil => simp [strStarts]
  | cons p ps ih =>
    cases s with
    | nil =>
      simp only [strStarts, List.cons_append]
      constructor
      · intro h; cases h
      · rintro ⟨t, ht⟩; cases ht
    | cons c cs =>
      simp only [strStarts, Bool.and_eq_true, decide_eq_true_eq, ih, List.cons_append]
      constructor
      · rintro ⟨rfl, t, rfl⟩; exact ⟨t, rfl⟩
      · rintro ⟨t, ht⟩
        injection ht with h1 h2
        exact ⟨h1.symm, t, h2⟩

theorem strStarts_append (pre t : Str) : strStarts (pre ++ t) pre = true :=
  (strStarts_iff _ _).mpr ⟨t, rfl⟩

/-! ## Classifier lemmas -/

theorem parseDoc_doc_ne_none (c : Str) (fl : Bool) :
    (parseDoc c fl).doc_line_type ≠ DocLineType.NONE := by
  unfold parseDoc
  split
  · simp
  · split
    · simp
    · split
      · cases fl <;> simp
      · cases fl <;> simp

theorem parseDoc_comment (c : Str) (fl : Bool) : (parseDoc c fl).comment = true := by
  unfold parseDoc
  split
  · rfl
  · split
    · rfl
    · split <;> rfl

theorem parseDoc_not_header (c : Str) (fl : Bool) (h : strStarts c ['#'] = false) :
    (parseDoc c fl).doc_line_type ≠ DocLineType.TEXT_HEADER ∧ (parseDoc c fl).content = c := by
  unfold parseDoc
  simp only [h]
  simp only [Bool.false_eq_true, if_false]
  split
  · simp
  · split
    · cases fl <;> simp
    · cases fl <;> simp

/-- Reclassifying a reconstructed doc line whose content is already
stripped reproduces the classification of that content. -/
theorem reparse_doc_marker (c : Str) (fl : Bool)
    (hl : lstrip c = c) (hr : rstrip c = c) :
    parseLine (['/', '/', '/', ' '] ++ c) fl = parseDoc c fl := by
  cases c with
  | nil => rfl
  | cons d t =>
    have hne : rstrip (d :: t) ≠ [] := by rw [hr]; simp
    have hsp : rstrip (' ' :: d :: t) = ' ' :: rstrip (d :: t) := rstrip_cons_of _ hne
    have hstrip : pyStrip (['/', '/', '/', ' '] ++ d :: t) = ['/', '/', '/', ' '] ++ d :: t := by
      show pyStrip ('/' :: '/' :: '/' :: ' ' :: d :: t) = '/' :: '/' :: '/' :: ' ' :: d :: t
      unfold pyStrip
      rw [lstrip_cons_nonsp '/' _ (by rfl), rstrip_cons_nonsp '/' _ (by rfl),
        rstrip_cons_nonsp '/' _ (by rfl), rstrip_cons_nonsp '/' _ (by rfl), hsp, hr]
    have hm1 : strStarts (['/', '/', '/', ' '] ++ d :: t) docMark1 = true := by
      have : (['/', '/', '/', ' '] ++ d :: t) = docMark1 ++ (' ' :: d :: t) := rfl
      rw [this]; exact strStarts_append _ _
    have hdrop : (['/', '/', '/', ' '] ++ d :: t).drop 3 = ' ' :: d :: t := rfl
    have hcontent : pyStrip (' ' :: d :: t) = d :: t := by
      rw [strip_cons_sp ' ' _ (by rfl)]
      exact strip_of_stripped hl hr
    rw [parseLine, hstrip, hm1]
    simp only [Bool.true_or, if_pos, hdrop, hcontent]

/-- Round trip for the classifier: reclassifying the formatted version of
a classified line, with the same doctest flag, reproduces the classified
line exactly. -/
theorem reparse (raw : Str) (fl : Bool) :
    parseLine (formatRL (parseLine raw fl)) fl = parseLine raw fl := by
  by_cases hdoc : (strStarts (pyStrip raw) docMark1 || strStarts (pyStrip raw) docMark2) = true
  · have hpr : parseLine raw fl = parseDoc (pyStrip ((pyStrip raw).drop 3)) fl := by
      rw [parseLine, if_pos hdoc]
    rw [hpr]
    set c := pyStrip ((pyStrip raw).drop 3) with hc
    have hlc : lstrip c = c := strip_lstrip _
    have hrc : rstrip c = c := strip_rstrip _
    by_cases hh : strStarts c ['#'] = true
    · -- header line: the reconstruction re-adds the hash marker
      have hpd : parseDoc c fl = ⟨.TEXT_HEADER, true, pyStrip (c.drop 1), .NONE⟩ := by
        unfold parseDoc; rw [if_pos hh]
      rw [hpd]
      have hfmt : formatRL ⟨.TEXT_HEADER, true, pyStrip (c.drop 1), .NONE⟩ =
          ['/', '/', '/', ' '] ++ ('#' :: ' ' :: pyStrip (c.drop 1)) := by
        unfold formatRL; simp
      rw [hfmt]
      set c1 := pyStrip (c.drop 1) with hc1
      have hl1 : lstrip c1 = c1 := strip_lstrip _
      have hr1 : rstrip c1 = c1 := strip_rstrip _
      cases hcc : c1 with
      | nil => rfl
      | cons d t =>
        rw [← hcc]
        have hne : rstrip c1 ≠ [] := by rw [hr1, hcc]; simp
        have hstr2 : lstrip ('#' :: ' ' :: c1) = '#' :: ' ' :: c1 :=
          lstrip_cons_nonsp '#' _ (by rfl)
        have hstr3 : rstrip ('#' :: ' ' :: c1) = '#' :: ' ' :: c1 := by
          rw [rstrip_cons_nonsp '#' _ (by rfl)]
          have h4 : rstrip (' ' :: c1) = ' ' :: rstrip c1 := rstrip_cons_of _ hne
          rw [h4, hr1]
        rw [reparse_doc_marker _ fl (by rw [hstr2]) (by rw [hstr3])]
        have hpd2 : parseDoc ('#' :: ' ' :: c1) fl =
            ⟨.TEXT_HEADER, true, pyStrip ((' ' :: c1)), .NONE⟩ := by
          unfold parseDoc
          rw [if_pos (by rfl : strStarts ('#' :: ' ' :: c1) ['#'] = true)]
          rfl
        rw [hpd2]
        have h5 : pyStrip (' ' :: c1) = c1 := by
          rw [strip_cons_sp ' ' _ (by rfl)]
          exact strip_of_stripped hl1 hr1
        rw [h5]
    · -- any non-header doc line keeps its stripped content verbatim
      have hh' : strStarts c ['#'] = false := by simpa using hh
      obtain ⟨hnh, hcon⟩ := parseDoc_not_header c fl hh'
      have hfmt : formatRL (parseDoc c fl) = ['/', '/', '/', ' '] ++ c := by
        unfold formatRL
        rw [if_pos (parseDoc_doc_ne_none c fl), if_neg hnh, hcon]
        simp
      rw [hfmt, reparse_doc_marker c fl hlc hrc]
  · have hdoc' : (strStarts (pyStrip raw) docMark1 || strStarts (pyStrip raw) docMark2) = false := by
      simpa using hdoc
    by_cases hcom : strStarts (pyStrip raw) comMark = true
    · have hpr : parseLine raw fl =
          ⟨.NONE, true, pyStrip ((pyStrip raw).drop 2), .NONE⟩ := by
        rw [parseLine, if_neg hdoc, if_pos hcom]
      rw [hpr]
      set c := pyStrip ((pyStrip raw).drop 2) with hc
      have hlc : lstrip c = c := strip_lstrip _
      have hrc : rstrip c = c := strip_rstrip _
      have hfmt : formatRL (⟨.NONE, true, c, .NONE⟩ : RustLine) = '/' :: '/' :: ' ' :: c := by
        unfold formatRL; simp
      rw [hfmt]
      cases hcc : c with
      | nil => rfl
      | cons d t =>
        rw [← hcc]
        have hne : rstrip c ≠ [] := by rw [hrc, hcc]; simp
        have hsp : rstrip (' ' :: c) = ' ' :: rstrip c := rstrip_cons_of _ hne
        have hstrip : pyStrip ('/' :: '/' :: ' ' :: c) = '/' :: '/' :: ' ' :: c := by
          unfold pyStrip
          rw [lstrip_cons_nonsp '/' _ (by rfl), rstrip_cons_nonsp '/' _ (by rfl),
            rstrip_cons_nonsp '/' _ (by rfl), hsp, hrc]
        have hm1 : strStarts ('/' :: '/' :: ' ' :: c) docMark1 = false := by
          simp [strStarts, docMark1]
        have hm2 : strStarts ('/' :: '/' :: ' ' :: c) docMark2 = false := by
          simp [strStarts, docMark2]
        have hm3 : strStarts ('/' :: '/' :: ' ' :: c) comMark = true := by
          simp [strStarts, comMark]
        have h7 : pyStrip (('/' :: '/' :: ' ' :: c).drop 2) = c := by
          show pyStrip (' ' :: c) = c
          rw [strip_cons_sp ' ' _ (by rfl)]
          exact strip_of_stripped hlc hrc
        rw [parseLine, hstrip, hm1, hm2, hm3]
        simp only [Bool.or_self, Bool.false_eq_true, if_false, if_pos, h7]
    · have hcom' : strStarts (pyStrip raw) comMark = false := by simpa using hcom
      have hpr : parseLine raw fl =
          ⟨.NONE, false, pyStrip raw, itemOf (pyStrip raw)⟩ := by
        rw [parseLine, if_neg hdoc, if_neg hcom]
      rw [hpr]
      have hfmt : formatRL (⟨.NONE, false, pyStrip raw, itemOf (pyStrip raw)⟩ : RustLine) =
          pyStrip raw := by
        unfold formatRL; simp
      rw [hfmt, parseLine, strip_idem, hdoc', hcom']
      simp

theorem docStartsFrom_spec :
    ∀ (suffix lines : List RustLine) (n : Nat), lines.drop n = suffix →
      (List.enumFrom n suffix).filter
          (fun p => isDocC p.2 && (p.1 == 0 || !(isDocAt lines (p.1 - 1)))) =
        docStartsFrom n (decide (n ≠ 0) && isDocAt lines (n - 1)) suffix := by
  intro suffix
  induction suffix with
  | nil => intro lines n _; rfl
  | cons l ls ih =>
    intro lines n h
    have hget : lines.get? n = some l := by
      have h0 := List.get?_drop lines n 0
      rw [h] at h0
      simpa using h0.symm
    have hdrop1 : lines.drop (n + 1) = ls := by
      have h0 := List.tail_drop lines n
      rw [h] at h0
      simpa using h0.symm
    have hdAt : isDocAt lines n = isDocC l := by
      unfold isDocAt; rw [hget]
    have hcond : (isDocC l && ((n : Nat) == 0 || !(isDocAt lines (n - 1)))) =
        (isDocC l && !(decide (n ≠ 0) && isDocAt lines (n - 1))) := by
      cases n with
      | zero => simp
      | succ m => simp
    have hnext : (decide ((n + 1) ≠ 0) && isDocAt lines (n + 1 - 1)) = isDocC l := by
      simp [hdAt]
    show List.filter _ ((n, l) :: List.enumFrom (n + 1) ls) = _
    rw [List.filter_cons]
    rw [docStartsFrom]
    rw [ih lines (n + 1) hdrop1, hnext]
    by_cases hb : (isDocC l && !(decide (n ≠ 0) && isDocAt lines (n - 1))) = true
    · rw [if_pos (by rw [hcond]; exact hb), if_pos hb]
      rfl
    · rw [if_neg (by rw [hcond]; exact hb), if_neg hb]
      rfl

theorem docCommentLines_eq_docStartsFrom (lines : List RustLine) :
    docCommentLines lines = docStartsFrom 0 false lines := by
  have h := docStartsFrom_spec lines lines 0 (by simp)
  simpa [docCommentLines, List.enum] using h

theorem docStartsFrom_length :
    ∀ (ls : List RustLine) (n : Nat) (prev : Bool),
      (docStartsFrom n prev ls).length = countRunsB prev (ls.map isDocC) := by
  intro ls
  induction ls with
  | nil => intro n prev; rfl
  | cons l t ih =>
    intro n prev
    rw [docStartsFrom, countRunsB.eq_def]
    simp only [List.map_cons]
    rw [List.length_append, ih (n + 1) (isDocC l)]
    by_cases hb : (isDocC l && !prev) = true
    · rw [if_pos hb, if_pos hb]; rfl
    · rw [if_neg hb, if_neg hb]; rfl

theorem collectLn_ok (f : Nat → RustLine → Except Unit Bool) (g : Nat × RustLine → Bool) :
    ∀ blocks : List (Nat × RustLine), (∀ p ∈ blocks, f p.1 p.2 = .ok (g p)) →
      collectLn f blocks = .ok ((blocks.filter g).map Prod.fst) := by
  intro blocks
  induction blocks with
  | nil => intro _; rfl
  | cons p rest ih =>
    intro H
    obtain ⟨ln, l⟩ := p
    have h1 : f ln l = .ok (g (ln, l)) := H (ln, l) (by simp)
    have h2 := ih fun q hq => H q (List.mem_cons_of_mem _ hq)
    rw [collectLn]
    rw [List.filter_cons]
    simp only [bind, Except.bind, h1, h2]
    cases hg : g (ln, l) <;> simp [hg] <;> rfl

theorem scanParts_ok (parts : List Str) (h : ∀ p ∈ parts, p ≠ []) :
    scanParts parts = .ok (parts.any fun q => isUpperCh (q.headD ' ')) := by
  induction parts with
  | nil => rfl
  | cons p ps ih =>
    cases hp : p with
    | nil => exact absurd hp (h p (by simp))
    | cons c cs =>
      subst hp
      have h2 := ih fun q hq => h q (List.mem_cons_of_mem _ hq)
      by_cases hu : isUpperCh c = true
      · simp [scanParts, hu]
      · have hu' : isUpperCh c = false := by simpa using hu
        simp [scanParts, hu', h2]

/-! ## Section gathering and fence lemmas -/

theorem gatherSections_eq_spec :
    ∀ (ls : List RustLine) (acc : List Str),
      (∃ l ∈ ls, l.doc_line_type = DocLineType.NONE) →
      gatherSections ls acc = gatherSectionsSpec ls acc := by
  intro ls
  induction ls with
  | nil => intro acc h; simp at h
  | cons l t ih =>
    intro acc h
    rw [gatherSections, gatherSectionsSpec]
    by_cases hT : l.doc_line_type = DocLineType.TEXT
    · rw [if_pos hT, if_pos hT]
      apply ih
      rcases h with ⟨x, hx, hxN⟩
      rcases List.mem_cons.mp hx with rfl | hxt
      · rw [hT] at hxN; simp at hxN
      · exact ⟨x, hxt, hxN⟩
    · rw [if_neg hT, if_neg hT]
      by_cases hN : l.doc_line_type = DocLineType.NONE
      · rw [if_pos hN, if_pos hN]
      · rw [if_neg hN, if_neg hN]
        congr 1
        apply ih
        rcases h with ⟨x, hx, hxN⟩
        rcases List.mem_cons.mp hx with rfl | hxt
        · exact absurd hxN hN
        · exact ⟨x, hxt, hxN⟩

theorem fence_not_hash (c : Str) (h : strStarts c fence = true) :
    strStarts c ['#'] = false := by
  obtain ⟨t, rfl⟩ := (strStarts_iff _ _).mp h
  simp only [fence, List.cons_append, strStarts]
  simp [show ¬('#' = Char.ofNat 96) from by decide]

theorem fence_nonempty (c : Str) (h : strStarts c fence = true) : c ≠ [] := by
  obtain ⟨t, rfl⟩ := (strStarts_iff _ _).mp h
  simp [fence]

theorem parseDoc_fence_iff (c : Str) (fl : Bool) :
    (((parseDoc c fl).doc_line_type = DocLineType.CODE_BEGIN ∨
        (parseDoc c fl).doc_line_type = DocLineType.CODE_END) ↔ strStarts c fence = true) ∧
    ((parseDoc c fl).doc_line_type = DocLineType.CODE_BEGIN ↔
        (strStarts c fence = true ∧ fl = false)) := by
  unfold parseDoc
  by_cases hh : strStarts c ['#'] = true
  · have hcf : strStarts c fence = false := by
      cases hcc : strStarts c fence
      · rfl
      · rw [fence_not_hash c hcc] at hh; cases hh
    simp [hh, hcf]
  · have hh' : strStarts c ['#'] = false := by simpa using hh
    by_cases he : c = []
    · subst he
      cases fl <;> decide
    · by_cases hf : strStarts c fence = true
      · cases fl <;> simp [hh', he, hf]
      · have hf' : strStarts c fence = false := by simpa using hf
        cases fl <;> simp [hh', he, hf']

theorem funcBlock_ok (lines : List RustLine) (ln : Nat) (l : RustLine)
    (h : stopItem (findStop (lines.drop (ln + 1))) = ItemType.FUNCTION →
          pyWords l.content ≠ []) :
    funcBlock lines ln l = .ok (funcSpecFlag lines (ln, l)) := by
  unfold funcBlock funcSpecFlag
  cases hs : findStop (lines.drop (ln + 1)) with
  | none => rfl
  | some stop =>
    by_cases hf : stop.item_type = ItemType.FUNCTION
    · have hw : pyWords l.content ≠ [] := h (by rw [hs]; simpa [stopItem] using hf)
      cases hw2 : pyWords l.content with
      | nil => exact absurd hw2 hw
      | cons w ws => simp [hf, hw2]
    · simp [hf]

/-! ## Claim theorems -/

/-- C1: the claim says no registered rule ever raises on an empty
sentence, an empty word list, or an unclosed bracket; in fact each of
the four rules hits an out-of-bounds access on such content: the
isolated-intro rule on an empty fragment, the complete-sentences rule on
an empty sentence, the cross-reference rule on a `[` with no closing
`]`, and the function-intro-verb rule on an empty first content line. -/
theorem C1_rules_crash_on_malformed_content :
    isolatedIntroCheck (parseLines false fileCrashIntro) = .error () ∧
    completeCheck (parseLines false fileCrashSent) = .error () ∧
    crossRefCheck (parseLines false fileCrashRef) = .error () ∧
    funcIntroCheck (parseLines false fileCrashVerb) = .error () :=
  ⟨rfl, rfl, rfl, rfl⟩

/-- C2, counterexample: a run whose last doc-text line is the last line
of the file is dropped by the complete-sentences gathering, not checked:
the code gathers no section from the one-line file, the spec's gathering
yields the run, and the rule reports nothing even though the text lacks
a terminal period. -/
theorem C2_eof_run_dropped :
    gatherSections (parseLines false fileEofRun) [] = [] ∧
    gatherSectionsSpec (parseLines false fileEofRun) [] = [[strL "Computes the sum"]] ∧
    completeCheck (parseLines false fileEofRun) = .ok [] :=
  ⟨rfl, rfl, rfl⟩

/-- C2, amended: the complete-sentences rule gathers every contiguous run
of doc-text lines that is terminated by a following line; whenever the
scanned segment contains a non-documentation line (so no run reaches the
end of the file unterminated), the gathered sections are exactly the
spec's runs. -/
theorem C2_sections_eq_when_terminated (ls : List RustLine) (acc : List Str)
    (h : ∃ l ∈ ls, l.doc_line_type = DocLineType.NONE) :
    gatherSections ls acc = gatherSectionsSpec ls acc :=
  gatherSections_eq_spec ls acc h

theorem C2_sections_eq_when_terminated_witness :
    (∃ l ∈ parseLines false fileTermRun, l.doc_line_type = DocLineType.NONE) ∧
    gatherSections (parseLines false fileTermRun) [] =
      gatherSectionsSpec (parseLines false fileTermRun) [] :=
  ⟨by decide, C2_sections_eq_when_terminated (parseLines false fileTermRun) [] (by decide)⟩

/-- C3, counterexample: a fence followed by a language tag is classified
`CODE_BEGIN` even though the fence is not the entire trimmed content. -/
theorem C3_fence_with_tag_is_begin :
    (parseLine rawFenceTag false).doc_line_type = DocLineType.CODE_BEGIN ∧
    docContent rawFenceTag ≠ fence :=
  ⟨rfl, by decide⟩

/-- C3, amended: the classifier assigns `CODE_BEGIN` or `CODE_END`
exactly when the line carries a doc marker and its trimmed documentation
content starts with the three-backtick fence (a trailing language tag
does not matter), and `CODE_BEGIN` exactly when additionally the
in-example flag is false. -/
theorem C3_fence_kind_iff (raw : Str) (fl : Bool) :
    (((parseLine raw fl).doc_line_type = DocLineType.CODE_BEGIN ∨
        (parseLine raw fl).doc_line_type = DocLineType.CODE_END) ↔
      ((strStarts (pyStrip raw) docMark1 = true ∨ strStarts (pyStrip raw) docMark2 = true) ∧
        strStarts (docContent raw) fence = true)) ∧
    ((parseLine raw fl).doc_line_type = DocLineType.CODE_BEGIN ↔
      ((strStarts (pyStrip raw) docMark1 = true ∨ strStarts (pyStrip raw) docMark2 = true) ∧
        strStarts (docContent raw) fence = true ∧ fl = false)) := by
  by_cases hm : (strStarts (pyStrip raw) docMark1 || strStarts (pyStrip raw) docMark2) = true
  · have hp : parseLine raw fl = parseDoc (docContent raw) fl := by
      rw [parseLine, if_pos hm]; rfl
    have hiff := parseDoc_fence_iff (docContent raw) fl
    have hor : strStarts (pyStrip raw) docMark1 = true ∨ strStarts (pyStrip raw) docMark2 = true := by
      simpa using hm
    constructor
    · rw [hp, hiff.1]
      exact ⟨fun hf => ⟨hor, hf⟩, fun hf => hf.2⟩
    · rw [hp, hiff.2]
      exact ⟨fun hf => ⟨hor, hf.1, hf.2⟩, fun hf => ⟨hf.2.1, hf.2.2⟩⟩
  · have hm' : (strStarts (pyStrip raw) docMark1 || strStarts (pyStrip raw) docMark2) = false := by
      simpa using hm
    have hk : (parseLine raw fl).doc_line_type = DocLineType.NONE := by
      rw [parseLine, if_neg hm]
      split <;> rfl
    have hor' : ¬(strStarts (pyStrip raw) docMark1 = true ∨
        strStarts (pyStrip raw) docMark2 = true) := by
      simp only [Bool.or_eq_true] at hm'
      simpa using hm'
    simp [hk, hor']

/-- C4: the claim says an unopenable file fails only that file's scan and
the run continues; in fact the runner catches nothing, so a missing
first file aborts the whole run with an uncaught error even though the
second file on its own scans cleanly. -/
theorem C4_missing_file_aborts_run :
    runFiles fsB [strL "a.rs", strL "b.rs"] = .error () ∧
    runFiles fsB [strL "b.rs"] = .ok [(strL "b.rs", [[], [], [], []])] :=
  ⟨rfl, rfl⟩

/-- C5: the doc-block-start iteration yields exactly the indexed pairs
whose record is a doc-kind line at that index with no doc-kind line
immediately before it (or at index 0), and the number of yielded pairs
equals the number of maximal runs of consecutive doc-kind lines preceded
by a non-doc-kind line or the start of the file. -/
theorem C5_doc_block_starts (lines : List RustLine) :
    (∀ i r, ((i, r) ∈ docCommentLines lines ↔
      lines.get? i = some r ∧ isDocC r = true ∧ (i = 0 ∨ isDocAt lines (i - 1) = false))) ∧
    (docCommentLines lines).length = countDocRuns lines := by
  constructor
  · intro i r
    unfold docCommentLines
    rw [List.mem_filter, List.mem_enum_iff_get?]
    simp only [Bool.and_eq_true, Bool.or_eq_true, beq_iff_eq, Bool.not_eq_true']
  · rw [docCommentLines_eq_docStartsFrom, docStartsFrom_length]
    rfl

/-- C6, counterexample: on a block whose intro splits into an empty
fragment followed by an uppercase-starting fragment, the claim demands a
violation at the block's start (the spec-side flag is raised for block
0), but the rule raises an indexing error instead of emitting it. -/
theorem C6_empty_fragment_breaks_iff :
    isolatedIntroCheck (parseLines false fileCrashIntro) = .error () ∧
    ((docCommentLines (parseLines false fileCrashIntro)).filter
        (isolatedSpecFlag (parseLines false fileCrashIntro))).map Prod.fst = [0] :=
  ⟨rfl, rfl⟩

/-- C6, amended: provided every fragment after the first is nonempty for
each block (an empty fragment raises an indexing error instead), the
isolated-intro rule emits a violation exactly at the starts of the
blocks having some fragment after the first that begins with an
uppercase character, at most once per block. -/
theorem C6_isolated_intro_flags (lines : List RustLine)
    (H : ∀ p ∈ docCommentLines lines,
      ∀ q ∈ (splitDot (introJoin p.2.content (lines.drop (p.1 + 1)))).tail, q ≠ []) :
    isolatedIntroCheck lines =
      .ok (((docCommentLines lines).filter (isolatedSpecFlag lines)).map Prod.fst) := by
  unfold isolatedIntroCheck
  apply collectLn_ok
  intro p hp
  obtain ⟨ln, l⟩ := p
  exact scanParts_ok _ (H (ln, l) hp)

theorem C6_isolated_intro_flags_witness :
    (∀ p ∈ docCommentLines (parseLines false fileTwoSent),
      ∀ q ∈ (splitDot (introJoin p.2.content
          ((parseLines false fileTwoSent).drop (p.1 + 1)))).tail, q ≠ []) ∧
    isolatedIntroCheck (parseLines false fileTwoSent) = .ok [0] :=
  ⟨by decide, (C6_isolated_intro_flags (parseLines false fileTwoSent) (by decide)).trans rfl⟩

/-- C7: whenever the first content line of a block supplies at least one
word in the cases the rule inspects, the function-intro-verb rule flags
exactly the blocks whose forward scan stops at a line declaring a
function and whose first word is not title-case or does not end in the
letter s. -/
theorem C7_function_intro_verb (lines : List RustLine)
    (H : ∀ p ∈ docCommentLines lines,
      stopItem (findStop (lines.drop (p.1 + 1))) = ItemType.FUNCTION →
        pyWords p.2.content ≠ []) :
    funcIntroCheck lines =
      .ok (((docCommentLines lines).filter (funcSpecFlag lines)).map Prod.fst) := by
  unfold funcIntroCheck
  apply collectLn_ok
  intro p hp
  obtain ⟨ln, l⟩ := p
  exact funcBlock_ok lines ln l (H (ln, l) hp)

theorem C7_function_intro_verb_witness :
    (∀ p ∈ docCommentLines (parseLines false fileVerbBad),
      stopItem (findStop ((parseLines false fileVerbBad).drop (p.1 + 1))) = ItemType.FUNCTION →
        pyWords p.2.content ≠ []) ∧
    funcIntroCheck (parseLines false fileVerbBad) = .ok [0] :=
  ⟨by decide, (C7_function_intro_verb (parseLines false fileVerbBad) (by decide)).trans rfl⟩

/-- C8: formatting a line classified (with the in-example flag false) as
plain doc text, plain comment, or code, and re-classifying the
reconstruction with the flag false, yields the same kind (doc-line type
and comment flag) and the same content. -/
theorem C8_format_stable (raw : Str)
    (h : (parseLine raw false).doc_line_type = DocLineType.TEXT ∨
      (parseLine raw false).doc_line_type = DocLineType.NONE) :
    (parseLine (formatRL (parseLine raw false)) false).doc_line_type =
        (parseLine raw false).doc_line_type ∧
    (parseLine (formatRL (parseLine raw false)) false).comment =
        (parseLine raw false).comment ∧
    (parseLine (formatRL (parseLine raw false)) false).content =
        (parseLine raw false).content := by
  rw [reparse raw false]
  exact ⟨rfl, rfl, rfl⟩

theorem C8_format_stable_witness :
    ((parseLine rawOuterDoc false).doc_line_type = DocLineType.TEXT ∨
      (parseLine rawOuterDoc false).doc_line_type = DocLineType.NONE) ∧
    ((parseLine (formatRL (parseLine rawOuterDoc false)) false).doc_line_type =
        (parseLine rawOuterDoc false).doc_line_type ∧
     (parseLine (formatRL (parseLine rawOuterDoc false)) false).comment =
        (parseLine rawOuterDoc false).comment ∧
     (parseLine (formatRL (parseLine rawOuterDoc false)) false).content =
        (parseLine rawOuterDoc false).content) :=
  ⟨by decide, C8_format_stable rawOuterDoc (by decide)⟩

/-- C9: classifying a line whose sole trimmed documentation content is
the fence toggles the threaded in-example flag exactly once per call,
and classifying the same content a second time with the updated flag
returns `CODE_END` exactly when the first call returned `CODE_BEGIN`. -/
theorem C9_fence_toggle (raw : Str) (fl : Bool)
    (h1 : strStarts (pyStrip raw) docMark1 = true ∨ strStarts (pyStrip raw) docMark2 = true)
    (h2 : docContent raw = fence) :
    updFlag (parseLine raw fl).doc_line_type fl = !fl ∧
    updFlag (parseLine raw (updFlag (parseLine raw fl).doc_line_type fl)).doc_line_type
        (updFlag (parseLine raw fl).doc_line_type fl) =
      !(updFlag (parseLine raw fl).doc_line_type fl) ∧
    ((parseLine raw (updFlag (parseLine raw fl).doc_line_type fl)).doc_line_type =
        DocLineType.CODE_END ↔
      (parseLine raw fl).doc_line_type = DocLineType.CODE_BEGIN) := by
  have hm : (strStarts (pyStrip raw) docMark1 || strStarts (pyStrip raw) docMark2) = true := by
    rcases h1 with h | h <;> simp [h]
  have hp : ∀ b, parseLine raw b = parseDoc fence b := by
    intro b
    rw [parseLine, if_pos hm, show pyStrip ((pyStrip raw).drop 3) = fence from h2]
  cases fl <;> simp [hp, parseDoc, fence, strStarts, updFlag]

theorem C9_fence_toggle_witness :
    ((strStarts (pyStrip rawFenceOnly) docMark1 = true ∨
        strStarts (pyStrip rawFenceOnly) docMark2 = true) ∧
      docContent rawFenceOnly = fence) ∧
    (updFlag (parseLine rawFenceOnly false).doc_line_type false = !false ∧
     updFlag (parseLine rawFenceOnly
          (updFlag (parseLine rawFenceOnly false).doc_line_type false)).doc_line_type
        (updFlag (parseLine rawFenceOnly false).doc_line_type false) =
      !(updFlag (parseLine rawFenceOnly false).doc_line_type false) ∧
     ((parseLine rawFenceOnly
          (updFlag (parseLine rawFenceOnly false).doc_line_type false)).doc_line_type =
        DocLineType.CODE_END ↔
      (parseLine rawFenceOnly false).doc_line_type = DocLineType.CODE_BEGIN)) :=
  ⟨⟨by decide, by decide⟩,
    C9_fence_toggle rawFenceOnly false (by decide) (by decide)⟩

/-- C10: a line beginning with the module-level marker is reconstructed
with the outer marker instead: the formatted line starts with the outer
marker, differs from the original raw text, and re-classifying it with
the same flag reproduces the classified record (kind and content). -/
theorem C10_inner_marker_lossy (raw : Str) (fl : Bool)
    (h : strStarts raw docMark2 = true) :
    strStarts (formatRL (parseLine raw fl)) docMark1 = true ∧
    formatRL (parseLine raw fl) ≠ raw ∧
    parseLine (formatRL (parseLine raw fl)) fl = parseLine raw fl := by
  obtain ⟨t, rfl⟩ := (strStarts_iff _ _).mp h
  have hstrip : pyStrip (docMark2 ++ t) = '/' :: '/' :: '!' :: rstrip t := by
    show pyStrip ('/' :: '/' :: '!' :: t) = '/' :: '/' :: '!' :: rstrip t
    unfold pyStrip
    rw [lstrip_cons_nonsp '/' _ (by rfl), rstrip_cons_nonsp '/' _ (by rfl),
      rstrip_cons_nonsp '/' _ (by rfl), rstrip_cons_nonsp '!' _ (by rfl)]
  have hm2 : strStarts (pyStrip (docMark2 ++ t)) docMark2 = true := by
    rw [hstrip]
    exact strStarts_append docMark2 (rstrip t)
  have hm : (strStarts (pyStrip (docMark2 ++ t)) docMark1 ||
      strStarts (pyStrip (docMark2 ++ t)) docMark2) = true := by
    simp [hm2]
  have hp : parseLine (docMark2 ++ t) fl =
      parseDoc (pyStrip ((pyStrip (docMark2 ++ t)).drop 3)) fl := by
    rw [parseLine, if_pos hm]
  have hfmt : ∃ x, formatRL (parseLine (docMark2 ++ t) fl) = '/' :: '/' :: '/' :: ' ' :: x := by
    rw [hp]
    refine ⟨(if (parseDoc (pyStrip ((pyStrip (docMark2 ++ t)).drop 3)) fl).doc_line_type =
        DocLineType.TEXT_HEADER then ['#', ' '] else []) ++
        (parseDoc (pyStrip ((pyStrip (docMark2 ++ t)).drop 3)) fl).content, ?_⟩
    unfold formatRL
    rw [if_pos (parseDoc_doc_ne_none _ fl)]
    rfl
  obtain ⟨x, hx⟩ := hfmt
  refine ⟨?_, ?_, reparse _ fl⟩
  · rw [hx]
    exact strStarts_append docMark1 (' ' :: x)
  · rw [hx]
    intro he
    rw [show docMark2 ++ t = '/' :: '/' :: '!' :: t from rfl] at he
    simp at he

theorem C10_inner_marker_lossy_witness :
    strStarts rawInnerDoc docMark2 = true ∧
    (strStarts (formatRL (parseLine rawInnerDoc false)) docMark1 = true ∧
     formatRL (parseLine rawInnerDoc false) ≠ rawInnerDoc ∧
     parseLine (formatRL (parseLine rawInnerDoc false)) false = parseLine rawInnerDoc false) :=
  ⟨by decide, C10_inner_marker_lossy rawInnerDoc false (by decide)⟩
